import Mathlib

/-!
# SecureID — formal model of the identity ledger and verification utilities

This file gives a shallow embedding of the SecureID identity system:

* the on-chain ledger `contracts/IdentityVerifier.sol` (state machine with
  `storeProof`, `updateLivenessStatus`, `deleteIdentity`,
  `verifyProofWithCodeHash`, `verifyCodeHash`, `getProofData`,
  `isDocumentUsed`), and
* the client-side helpers `lib/verification-utils.ts`
  (`generateVerificationCode`, `hashVerificationCode`, `verifyCode`).

Machine values are modelled as `Nat`: an address is a natural number
(`0` plays the role of `address(0)`), a `bytes32` value is a natural
number, and raw byte strings are `List Nat`.  The keccak256 hash itself
is kept abstract: operations that hash take the hash function as an
explicit argument, so theorems quantify over it (adding a
collision-freeness hypothesis exactly where the code relies on it).
Reverting Solidity calls are embedded as `Except`-valued functions; a
`require` failure returns the error and no successor state, which is the
shallow counterpart of the EVM rolling the whole call back.
-/

/-! ## Byte-level encodings shared by the contract and the client -/

/-- UTF-8 bytes of a string, as natural numbers.  Both Solidity's
`bytes(s)` / `abi.encodePacked(s)` for a `string` argument and ethers'
`solidityPacked` encoding of a `"string"` value are the UTF-8 bytes. -/
def utf8Bytes (s : String) : List ℕ :=
  s.toUTF8.toList.map (fun b => b.toNat)

/-- The 20-byte big-endian encoding of an address (Solidity
`abi.encodePacked(address)` / ethers `solidityPacked ["address"]`). -/
def addressBytes20 (a : ℕ) : List ℕ :=
  (List.range 20).map (fun i => a / 256 ^ (19 - i) % 256)

/-- A value passed to ethers' `solidityPacked`, together with its type
tag: a `"string"`-tagged string or an `"address"`-tagged address. -/
inductive SolValue where
  | str (s : String)
  | addr (a : ℕ)

/-- Packed encoding of a single tagged value, per the `ethers`
`solidityPacked` rules used in `lib/verification-utils.ts`. -/
def solValueBytes : SolValue → List ℕ
  | SolValue.str s => utf8Bytes s
  | SolValue.addr a => addressBytes20 a

/-- `ethers.solidityPacked`: concatenation of the packed encodings of
the listed values (no padding, no length prefixes). -/
def solidityPacked (vs : List SolValue) : List ℕ :=
  (vs.map solValueBytes).flatten

/-- The byte string hashed by `hashVerificationCode` in
`lib/verification-utils.ts`:
`ethers.solidityPacked(["string","string","address"], [code, ":", address])`. -/
def hashVerificationCodePacked (code : String) (address : ℕ) : List ℕ :=
  solidityPacked [SolValue.str code, SolValue.str ":", SolValue.addr address]

/-- The byte string hashed by the contract's `verifyCodeHash`:
`abi.encodePacked(verificationCode, ":", userAddress)` — the UTF-8 bytes
of the code, then of `":"`, then the 20 address bytes. -/
def encodePackedCodeColonAddress (code : String) (address : ℕ) : List ℕ :=
  utf8Bytes code ++ utf8Bytes ":" ++ addressBytes20 address

/-! ## The `IdentityVerifier` contract state -/

/-- The `Identity` struct of `IdentityVerifier.sol`.  A mapping slot
that was never written holds the all-default record (empty strings,
`false` flags, zero timestamp); the contract treats `proofId = ""` as
"no identity". -/
structure Identity where
  proofId : String
  commitment : String
  isAdult : Bool
  livenessVerified : Bool
  timestamp : ℕ
  isDeleted : Bool
deriving Repr, DecidableEq

/-- The default (never-written) `Identity` mapping value. -/
def Identity.empty : Identity :=
  { proofId := "", commitment := "", isAdult := false,
    livenessVerified := false, timestamp := 0, isDeleted := false }

/-- Revert reasons of the contract, named as in the specification's
error taxonomy.  Each constructor corresponds to one `require` string:
`EmptyProofId` ↔ "Proof ID cannot be empty",
`DuplicateIdentity` ↔ "User already has an active identity",
`DocumentReused` ↔ "This document has already been used to create an identity",
`NotFound` ↔ "No identity found for this user",
`AlreadyDeleted` ↔ "Identity has been deleted" / "Identity already deleted",
`UnknownFingerprint` ↔ "Invalid address hash". -/
inductive Err where
  | EmptyProofId
  | DuplicateIdentity
  | DocumentReused
  | NotFound
  | AlreadyDeleted
  | UnknownFingerprint
deriving Repr, DecidableEq

/-- Events emitted by the contract. -/
inductive Event where
  | ProofStored (proofId : String) (user : ℕ) (isAdult livenessVerified : Bool) (timestamp : ℕ)
  | ProofVerified (proofId : String) (verifier user : ℕ) (timestamp : ℕ)
  | IdentityDeleted (user : ℕ) (timestamp : ℕ)
deriving Repr, DecidableEq

/-- Point update of a total map (a Solidity `mapping` write). -/
def upd {α β : Type} [DecidableEq α] (f : α → β) (k : α) (v : β) : α → β :=
  fun x => if x = k then v else f x

/-- The contract's storage: the four mappings of `IdentityVerifier.sol`
plus the emitted event log. -/
structure ContractState where
  userIdentities : ℕ → Identity
  proofData : String → String
  documentHashes : ℕ → Bool
  addressHashes : ℕ → ℕ
  events : List Event

/-- Freshly deployed contract: every mapping holds its default value. -/
def emptyState : ContractState :=
  { userIdentities := fun _ => Identity.empty,
    proofData := fun _ => "",
    documentHashes := fun _ => false,
    addressHashes := fun _ => 0,
    events := [] }

/-- `storeProof` (IdentityVerifier.sol lines 40–81).  `kaddr` models
`keccak256(abi.encodePacked(msg.sender))`; `sender` is `msg.sender` and
`ts` is `block.timestamp`.  Solidity's `bytes(proofId).length == 0`
holds exactly when `proofId` is the empty string, which is how the first
`require` is rendered here. -/
def storeProof (kaddr : ℕ → ℕ) (s : ContractState) (sender : ℕ)
    (proofId commitment : String) (isAdult livenessVerified : Bool)
    (proofDataStr : String) (documentHash : ℕ) (ts : ℕ) :
    Except Err ContractState :=
  if proofId = "" then
    Except.error Err.EmptyProofId
  else if ¬ ((s.userIdentities sender).proofId = "" ∨
             (s.userIdentities sender).isDeleted = true) then
    Except.error Err.DuplicateIdentity
  else if s.documentHashes documentHash = true then
    Except.error Err.DocumentReused
  else
    Except.ok
      { userIdentities := upd s.userIdentities sender
          { proofId := proofId, commitment := commitment, isAdult := isAdult,
            livenessVerified := livenessVerified, timestamp := ts,
            isDeleted := false },
        proofData := upd s.proofData proofId proofDataStr,
        documentHashes := upd s.documentHashes documentHash true,
        addressHashes := upd s.addressHashes (kaddr sender) sender,
        events := s.events ++
          [Event.ProofStored proofId sender isAdult livenessVerified ts] }

/-- The state after `storeProof`, with the EVM's revert semantics made
explicit: on a failed `require` the pre-state is kept unchanged. -/
def execStoreProof (kaddr : ℕ → ℕ) (s : ContractState) (sender : ℕ)
    (proofId commitment : String) (isAdult livenessVerified : Bool)
    (proofDataStr : String) (documentHash : ℕ) (ts : ℕ) : ContractState :=
  match storeProof kaddr s sender proofId commitment isAdult livenessVerified
      proofDataStr documentHash ts with
  | Except.ok s' => s'
  | Except.error _ => s

/-- `updateLivenessStatus` (IdentityVerifier.sol lines 87–105).  On
success it flips the record's `livenessVerified` field and appends
`", \x22livenessVerified\x22: true/false"` to the stored proof payload;
the contract re-emits `ProofStored` as its update event. -/
def updateLivenessStatus (s : ContractState) (sender : ℕ)
    (livenessVerified : Bool) (ts : ℕ) : Except Err ContractState :=
  if (s.userIdentities sender).proofId = "" then
    Except.error Err.NotFound
  else if (s.userIdentities sender).isDeleted = true then
    Except.error Err.AlreadyDeleted
  else
    Except.ok
      { userIdentities := upd s.userIdentities sender
          { s.userIdentities sender with livenessVerified := livenessVerified },
        proofData := upd s.proofData (s.userIdentities sender).proofId
          (s.proofData (s.userIdentities sender).proofId ++
            ", \"livenessVerified\": " ++
            (if livenessVerified then "true" else "false")),
        documentHashes := s.documentHashes,
        addressHashes := s.addressHashes,
        events := s.events ++
          [Event.ProofStored (s.userIdentities sender).proofId sender
            (s.userIdentities sender).isAdult livenessVerified ts] }

/-- `deleteIdentity` (IdentityVerifier.sol lines 251–264): marks the
caller's record deleted; deliberately leaves `documentHashes` (and every
other mapping) untouched. -/
def deleteIdentity (s : ContractState) (sender : ℕ) (ts : ℕ) :
    Except Err ContractState :=
  if (s.userIdentities sender).proofId = "" then
    Except.error Err.NotFound
  else if (s.userIdentities sender).isDeleted = true then
    Except.error Err.AlreadyDeleted
  else
    Except.ok
      { userIdentities := upd s.userIdentities sender
          { s.userIdentities sender with isDeleted := true },
        proofData := s.proofData,
        documentHashes := s.documentHashes,
        addressHashes := s.addressHashes,
        events := s.events ++ [Event.IdentityDeleted sender ts] }

/-- `getAddressFromHash` (IdentityVerifier.sol lines 121–125): the
reverse lookup fails when the slot still holds `address(0)`. -/
def getAddressFromHash (s : ContractState) (addressHash : ℕ) :
    Except Err ℕ :=
  if s.addressHashes addressHash = 0 then Except.error Err.UnknownFingerprint
  else Except.ok (s.addressHashes addressHash)

/-- `verifyCodeHash` (IdentityVerifier.sol lines 134–137): recompute
`keccak256(abi.encodePacked(code, ":", userAddress))` and compare with
the presented hash.  `kbytes` models keccak256 on byte strings. -/
def verifyCodeHash (kbytes : List ℕ → ℕ) (verificationCode : String)
    (codeHash : ℕ) (userAddress : ℕ) : Bool :=
  kbytes (encodePackedCodeColonAddress verificationCode userAddress) == codeHash

/-- `verifyProofWithCodeHash` (IdentityVerifier.sol lines 147–172).
`kstr` models `keccak256(bytes ·)` on strings (the contract compares
proof-id strings through their hashes), `kbytes` keccak256 on byte
strings.  The function is a Solidity `view`: it is embedded as a pure
function of the state that returns no successor state, so it can mutate
nothing and repeated calls on the same state agree definitionally. -/
def verifyProofWithCodeHash (kstr : String → ℕ) (kbytes : List ℕ → ℕ)
    (s : ContractState) (proofId : String) (addressHash : ℕ)
    (verificationCode : String) (codeHash : ℕ) : Except Err Bool :=
  match getAddressFromHash s addressHash with
  | Except.error e => Except.error e
  | Except.ok userAddress =>
    if (s.userIdentities userAddress).proofId = "" then
      Except.error Err.NotFound
    else if (s.userIdentities userAddress).isDeleted = true then
      Except.error Err.AlreadyDeleted
    else
      Except.ok ((kstr (s.userIdentities userAddress).proofId == kstr proofId) &&
        verifyCodeHash kbytes verificationCode codeHash userAddress)

/-- `getUserIdentity` (IdentityVerifier.sol lines 220–237). -/
def getUserIdentity (s : ContractState) (user : ℕ) : Identity :=
  s.userIdentities user

/-- `getProofData` (IdentityVerifier.sol lines 244–246). -/
def getProofData (s : ContractState) (proofId : String) : String :=
  s.proofData proofId

/-- `isDocumentUsed` (IdentityVerifier.sol lines 271–273). -/
def isDocumentUsed (s : ContractState) (documentHash : ℕ) : Bool :=
  s.documentHashes documentHash

/-- One successful mutating contract call, by anyone with any
arguments.  The three constructors are the contract's only state
mutators. -/
inductive Step : ContractState → ContractState → Prop where
  | store {kaddr s sender proofId commitment isAdult livenessVerified
      proofDataStr documentHash ts s'}
      (h : storeProof kaddr s sender proofId commitment isAdult
        livenessVerified proofDataStr documentHash ts = Except.ok s') :
      Step s s'
  | update {s sender livenessVerified ts s'}
      (h : updateLivenessStatus s sender livenessVerified ts = Except.ok s') :
      Step s s'
  | delete {s sender ts s'}
      (h : deleteIdentity s sender ts = Except.ok s') :
      Step s s'

/-! ## Client-side utilities (`lib/verification-utils.ts`) -/

/-- The random six-digit number of `generateVerificationCode`:
`Math.floor(100000 + Math.random() * 900000)`, with the value of
`Math.random()` — a number in `[0, 1)` — made an explicit rational
argument `q`. -/
def randomSixDigitNum (q : ℚ) : ℕ :=
  (⌊(100000 : ℚ) + q * 900000⌋).toNat

/-- JavaScript's `Number.prototype.toString` on a natural number: the
usual decimal digit string. -/
def decimalRepr (n : ℕ) : String :=
  if n = 0 then "0"
  else String.mk ((Nat.digits 10 n).reverse.map (fun d => Char.ofNat (48 + d)))

/-- JavaScript's `String.prototype.padStart`: left-pad with `c` up to
`targetLength` (no-op when the string is already long enough). -/
def jsPadStart (s : String) (targetLength : ℕ) (c : Char) : String :=
  String.mk (List.replicate (targetLength - s.length) c) ++ s

/-- `generateVerificationCode` (verification-utils.ts lines 7–12):
`Math.floor(100000 + Math.random() * 900000).toString().padStart(6, "0")`. -/
def generateVerificationCode (q : ℚ) : String :=
  jsPadStart (decimalRepr (randomSixDigitNum q)) 6 '0'

/-- JavaScript's `s.startsWith(p)`. -/
def jsStartsWith (s p : String) : Bool :=
  p.data.isPrefixOf s.data

/-- JavaScript's `s.substring(n)` (drop the first `n` characters). -/
def jsSubstringFrom (s : String) (n : ℕ) : String :=
  String.mk (s.data.drop n)

/-- `hashVerificationCode` (verification-utils.ts lines 20–32):
`ethers.keccak256(ethers.solidityPacked(["string","string","address"],
[code, ":", address]))`.  `khex` models the keccak digest as lowercase
hex WITHOUT the `0x` prefix; `ethers.keccak256` itself returns the
digest WITH a `0x` prefix, and the function returns that value as is
(its comment announces stripping the prefix, but no stripping happens). -/
def hashVerificationCode (khex : List ℕ → String) (code : String)
    (address : ℕ) : String :=
  "0x" ++ khex (hashVerificationCodePacked code address)

/-- `verifyCode` (verification-utils.ts lines 57–61): recompute the
hash for `code` and `address` and compare it with `hash`, first
stripping a `0x` prefix from `hash` (and only from `hash`). -/
def verifyCode (khex : List ℕ → String) (code : String) (hash : String)
    (address : ℕ) : Bool :=
  hashVerificationCode khex code address ==
    (if jsStartsWith hash "0x" then jsSubstringFrom hash 2 else hash)

/-! ## Concrete instantiations used to exercise the model -/

/-- Injective code of a character list, used to build a concrete
collision-free stand-in for keccak256 on strings. -/
def charListCode : List Char → ℕ
  | [] => 0
  | c :: cs => Nat.pair c.toNat (charListCode cs) + 1

/-- A concrete injective `String → ℕ`, standing in for
`keccak256(bytes ·)` in witnesses (keccak itself is modelled as an
arbitrary function; collision-freeness becomes injectivity). -/
def strCode (s : String) : ℕ :=
  charListCode s.data

/-- A concrete stand-in for `keccak256(abi.encodePacked(address))`:
injective and never `0`, as required of an address fingerprint. -/
def kA : ℕ → ℕ := fun a => a + 1

/-- A concrete stand-in for keccak256 on byte strings. -/
def kB : List ℕ → ℕ := fun l => l.length

/-- First-success branch of a contract call, for building concrete
scenario states. -/
def okOr (x : Except Err ContractState) : ContractState :=
  match x with
  | Except.ok s => s
  | Except.error _ => emptyState

/-- Scenario state: holder `1` stored an identity with proof id
`"proof1"` and document fingerprint `7` on the fresh contract. -/
def stateA : ContractState :=
  okOr (storeProof kA emptyState 1 "proof1" "commit1" true false "{}" 7 100)

/-- Scenario state: `stateA` after holder `1` deleted their identity. -/
def stateADel : ContractState :=
  okOr (deleteIdentity stateA 1 200)

/-- Scenario state: `stateA` after holder `1` updated their liveness
status to `true`. -/
def stateAUpd : ContractState :=
  okOr (updateLivenessStatus stateA 1 true 150)

/-- Scenario state: `stateADel` after holder `1` re-created a fresh
identity with a new proof id and a never-used document fingerprint. -/
def stateAReborn : ContractState :=
  okOr (storeProof kA stateADel 1 "proof2" "commit2" true true "{2}" 9 300)

/-- A holder's record exists but is marked deleted. -/
def deletedRecord (s : ContractState) (a : ℕ) : Prop :=
  (s.userIdentities a).proofId ≠ "" ∧ (s.userIdentities a).isDeleted = true

/-! ## General lemmas about the embedding -/

theorem upd_self {α β : Type} [DecidableEq α] (f : α → β) (k : α) (v : β) :
    upd f k v k = v := by
  simp [upd]

theorem upd_ne {α β : Type} [DecidableEq α] (f : α → β) (k : α) (v : β)
    (x : α) (h : x ≠ k) : upd f k v x = f x := by
  simp [upd, h]

theorem charListCode_inj :
    ∀ l₁ l₂ : List Char, charListCode l₁ = charListCode l₂ → l₁ = l₂ := by
  intro l₁
  induction l₁ with
  | nil =>
    intro l₂ h
    cases l₂ with
    | nil => rfl
    | cons d ds => simp [charListCode] at h
  | cons c cs ih =>
    intro l₂ h
    cases l₂ with
    | nil => simp [charListCode] at h
    | cons d ds =>
      simp only [charListCode, Nat.add_right_cancel_iff] at h
      rw [Nat.pair_eq_pair] at h
      obtain ⟨h1, h2⟩ := h
      rw [Char.ext (UInt32.ext h1), ih ds h2]

theorem strCode_injective : Function.Injective strCode := by
  intro s t h
  exact String.ext (charListCode_inj _ _ h)

/-! ## C7 — the two packed encodings agree -/

/-- C7: for every verification code string and every holder address,
the byte string that `hashVerificationCode` (client,
`ethers.solidityPacked(["string","string","address"], [code, ":", address])`)
feeds to keccak256 is byte-identical to the byte string the contract's
`verifyCodeHash` hashes (`abi.encodePacked(code, ":", address)`), so any
hash function applied to the two encodings agrees on every input. -/
theorem C7_packed_encodings_agree (kb : List ℕ → ℕ) (code : String)
    (address : ℕ) :
    hashVerificationCodePacked code address =
      encodePackedCodeColonAddress code address ∧
    kb (hashVerificationCodePacked code address) =
      kb (encodePackedCodeColonAddress code address) := by
  have h : hashVerificationCodePacked code address =
      encodePackedCodeColonAddress code address := by
    simp [hashVerificationCodePacked, solidityPacked, solValueBytes,
      encodePackedCodeColonAddress, List.append_assoc]
  exact ⟨h, congrArg kb h⟩

/-! ## C9 — the client-side round trip -/

theorem jsStartsWith_0x_append (d : String) :
    jsStartsWith ("0x" ++ d) "0x" = true := by
  simp only [jsStartsWith, String.data_append]
  exact List.isPrefixOf_iff_prefix.mpr (List.prefix_append _ _)

theorem jsSubstringFrom_0x_append (d : String) :
    jsSubstringFrom ("0x" ++ d) 2 = d := by
  apply String.ext
  simp only [jsSubstringFrom, String.data_append]
  rfl

/-- C9 (code evaluated at the failing inputs): `hashVerificationCode`
returns its hash still carrying the `0x` prefix (its comment announces
stripping it, but `return hash` returns the prefixed `ethers.keccak256`
output), while `verifyCode` strips the prefix only from the `hash`
argument before the comparison.  Consequently the round trip
`verifyCode(code, hashVerificationCode(code, address), address)` is
`false` for every code, address, and keccak digest function — the claim
says this round trip returns `true`. -/
theorem C9_roundtrip_always_false (khex : List ℕ → String) (code : String)
    (address : ℕ) :
    jsStartsWith (hashVerificationCode khex code address) "0x" = true ∧
    verifyCode khex code (hashVerificationCode khex code address) address
      = false := by
  constructor
  · exact jsStartsWith_0x_append _
  · unfold verifyCode
    rw [show hashVerificationCode khex code address =
        "0x" ++ khex (hashVerificationCodePacked code address) from rfl]
    rw [jsStartsWith_0x_append, if_pos rfl, jsSubstringFrom_0x_append]
    rw [beq_eq_false_iff_ne]
    intro h
    have hlen := congrArg String.length h
    rw [String.length_append] at hlen
    have h2 : ("0x" : String).length = 2 := rfl
    rw [h2] at hlen
    omega

/-! ## C8 — range and shape of the generated verification code -/

theorem randomSixDigitNum_lower {q : ℚ} (h0 : 0 ≤ q) :
    100000 ≤ randomSixDigitNum q := by
  unfold randomSixDigitNum
  have hfl : (100000 : ℤ) ≤ ⌊(100000 : ℚ) + q * 900000⌋ := by
    apply Int.le_floor.mpr
    push_cast
    nlinarith
  have hz : (0 : ℤ) ≤ ⌊(100000 : ℚ) + q * 900000⌋ := le_trans (by norm_num) hfl
  exact (Int.le_toNat hz).mpr (by exact_mod_cast hfl)

theorem randomSixDigitNum_upper {q : ℚ} (h1 : q < 1) :
    randomSixDigitNum q ≤ 999999 := by
  unfold randomSixDigitNum
  apply Int.toNat_le.mpr
  have hfl : ⌊(100000 : ℚ) + q * 900000⌋ < 1000000 := by
    apply Int.floor_lt.mpr
    push_cast
    nlinarith
  omega

theorem digits_length_six {n : ℕ} (h1 : 100000 ≤ n) (h2 : n ≤ 999999) :
    (Nat.digits 10 n).length = 6 := by
  have hn : n ≠ 0 := by omega
  rw [Nat.digits_len 10 n (by norm_num) hn]
  have hlog : Nat.log 10 n = 5 := by
    apply Nat.log_eq_of_pow_le_of_lt_pow
    · norm_num
      omega
    · norm_num
      omega
  omega

theorem decimalRepr_length_six {n : ℕ} (h1 : 100000 ≤ n) (h2 : n ≤ 999999) :
    (decimalRepr n).length = 6 := by
  have hn : n ≠ 0 := by omega
  simp only [decimalRepr, if_neg hn, String.length]
  rw [List.length_map, List.length_reverse]
  exact digits_length_six h1 h2

theorem decimalRepr_head {n : ℕ} (h1 : 100000 ≤ n) (h2 : n ≤ 999999) :
    ∃ d, d ≠ 0 ∧ d < 10 ∧
      (decimalRepr n).data.head? = some (Char.ofNat (48 + d)) := by
  have hn : n ≠ 0 := by omega
  have hnil : Nat.digits 10 n ≠ [] := Nat.digits_ne_nil_iff_ne_zero.mpr hn
  refine ⟨(Nat.digits 10 n).getLast hnil, Nat.getLast_digit_ne_zero 10 hn,
    Nat.digits_lt_base (by norm_num) (List.getLast_mem hnil), ?_⟩
  simp only [decimalRepr, if_neg hn]
  rw [List.head?_map, List.head?_reverse, List.getLast?_eq_getLast _ hnil]
  rfl

theorem charOfNat_digit_ne_zero {d : ℕ} (h0 : d ≠ 0) (h1 : d < 10) :
    Char.ofNat (48 + d) ≠ '0' := by
  interval_cases d
  · exact absurd rfl h0
  all_goals decide

theorem jsPadStart_six_noop {s : String} (h : s.length = 6) :
    jsPadStart s 6 '0' = s := by
  unfold jsPadStart
  rw [h]
  apply String.ext
  simp [String.data_append]

/-- C8 (amended): for every value `q ∈ [0,1)` of the underlying
randomness source, the generated number lies in `100000`–`999999`, the
`padStart` is a no-op, and the code is the plain 6-digit decimal string
of that number, whose leading digit is never `'0'`. -/
theorem C8_code_range_and_shape (q : ℚ) (h0 : 0 ≤ q) (h1 : q < 1) :
    100000 ≤ randomSixDigitNum q ∧ randomSixDigitNum q ≤ 999999 ∧
    generateVerificationCode q = decimalRepr (randomSixDigitNum q) ∧
    (generateVerificationCode q).length = 6 ∧
    (generateVerificationCode q).data.head? ≠ some '0' := by
  have hlo := randomSixDigitNum_lower h0
  have hhi := randomSixDigitNum_upper h1
  have hlen := decimalRepr_length_six hlo hhi
  have heq : generateVerificationCode q = decimalRepr (randomSixDigitNum q) :=
    jsPadStart_six_noop hlen
  obtain ⟨d, hd0, hd10, hhead⟩ := decimalRepr_head hlo hhi
  refine ⟨hlo, hhi, heq, by rw [heq]; exact hlen, ?_⟩
  rw [heq, hhead]
  intro hcontra
  exact charOfNat_digit_ne_zero hd0 hd10 (Option.some.inj hcontra)

/-- C8 witness: the concrete randomness value `0` satisfies the
hypotheses, yielding code `"100000"`-shaped output facts. -/
theorem C8_code_range_and_shape_witness :
    100000 ≤ randomSixDigitNum 0 ∧ randomSixDigitNum 0 ≤ 999999 ∧
    generateVerificationCode 0 = decimalRepr (randomSixDigitNum 0) ∧
    (generateVerificationCode 0).length = 6 ∧
    (generateVerificationCode 0).data.head? ≠ some '0' :=
  C8_code_range_and_shape 0 le_rfl zero_lt_one

/-- C8 counterexample: no value of the randomness source can produce
the code `"012345"` (nor any code below `100000`): the claim's
`000000`–`999999` range with leading zeros preserved is refuted —
`Math.floor(100000 + Math.random() * 900000)` never goes below
`100000`, so the `padStart` dead-code never fires. -/
theorem C8_counterexample :
    ¬ ∃ q : ℚ, 0 ≤ q ∧ q < 1 ∧ generateVerificationCode q = "012345" := by
  rintro ⟨q, h0, h1, hc⟩
  have hlo := randomSixDigitNum_lower h0
  have hhi := randomSixDigitNum_upper h1
  have hlen := decimalRepr_length_six hlo hhi
  have heq : generateVerificationCode q = decimalRepr (randomSixDigitNum q) :=
    jsPadStart_six_noop hlen
  obtain ⟨d, hd0, hd10, hhead⟩ := decimalRepr_head hlo hhi
  rw [heq] at hc
  rw [hc] at hhead
  have hsome : some '0' = some (Char.ofNat (48 + d)) := by
    rw [← hhead]
    rfl
  exact charOfNat_digit_ne_zero hd0 hd10 (Option.some.inj hsome).symm

/-! ## Characterization of the contract operations -/

theorem storeProof_ok_elim {kaddr : ℕ → ℕ} {s : ContractState} {sender : ℕ}
    {p c : String} {ia lv : Bool} {pd : String} {F ts : ℕ}
    {s' : ContractState}
    (h : storeProof kaddr s sender p c ia lv pd F ts = Except.ok s') :
    p ≠ "" ∧
    ((s.userIdentities sender).proofId = "" ∨
      (s.userIdentities sender).isDeleted = true) ∧
    s.documentHashes F = false ∧
    s' =
      { userIdentities := upd s.userIdentities sender
          { proofId := p, commitment := c, isAdult := ia,
            livenessVerified := lv, timestamp := ts, isDeleted := false },
        proofData := upd s.proofData p pd,
        documentHashes := upd s.documentHashes F true,
        addressHashes := upd s.addressHashes (kaddr sender) sender,
        events := s.events ++ [Event.ProofStored p sender ia lv ts] } := by
  unfold storeProof at h
  by_cases h1 : p = ""
  · rw [if_pos h1] at h
    exact absurd h (by simp)
  rw [if_neg h1] at h
  by_cases h2 : (s.userIdentities sender).proofId = "" ∨
      (s.userIdentities sender).isDeleted = true
  · rw [if_neg (not_not.mpr h2)] at h
    by_cases h3 : s.documentHashes F = true
    · rw [if_pos h3] at h
      exact absurd h (by simp)
    · rw [if_neg h3] at h
      exact ⟨h1, h2, by simpa using h3, (Except.ok.inj h).symm⟩
  · rw [if_pos h2] at h
    exact absurd h (by simp)

theorem storeProof_ok_intro {kaddr : ℕ → ℕ} {s : ContractState} {sender : ℕ}
    {p c : String} {ia lv : Bool} {pd : String} {F ts : ℕ}
    (h1 : p ≠ "")
    (h2 : (s.userIdentities sender).proofId = "" ∨
      (s.userIdentities sender).isDeleted = true)
    (h3 : s.documentHashes F = false) :
    storeProof kaddr s sender p c ia lv pd F ts = Except.ok
      { userIdentities := upd s.userIdentities sender
          { proofId := p, commitment := c, isAdult := ia,
            livenessVerified := lv, timestamp := ts, isDeleted := false },
        proofData := upd s.proofData p pd,
        documentHashes := upd s.documentHashes F true,
        addressHashes := upd s.addressHashes (kaddr sender) sender,
        events := s.events ++ [Event.ProofStored p sender ia lv ts] } := by
  unfold storeProof
  rw [if_neg h1, if_neg (not_not.mpr h2), if_neg (by simp [h3])]

theorem storeProof_error_elim {kaddr : ℕ → ℕ} {s : ContractState}
    {sender : ℕ} {p c : String} {ia lv : Bool} {pd : String} {F ts : ℕ}
    {e : Err}
    (h : storeProof kaddr s sender p c ia lv pd F ts = Except.error e) :
    e = Err.EmptyProofId ∨ e = Err.DuplicateIdentity ∨
      e = Err.DocumentReused := by
  unfold storeProof at h
  by_cases h1 : p = ""
  · rw [if_pos h1] at h
    exact Or.inl (Except.error.inj h).symm
  rw [if_neg h1] at h
  by_cases h2 : (s.userIdentities sender).proofId = "" ∨
      (s.userIdentities sender).isDeleted = true
  · rw [if_neg (not_not.mpr h2)] at h
    by_cases h3 : s.documentHashes F = true
    · rw [if_pos h3] at h
      exact Or.inr (Or.inr (Except.error.inj h).symm)
    · rw [if_neg h3] at h
      exact absurd h (by simp)
  · rw [if_pos h2] at h
    exact Or.inr (Or.inl (Except.error.inj h).symm)

theorem storeProof_docReused {kaddr : ℕ → ℕ} {s : ContractState}
    {sender : ℕ} {p c : String} {ia lv : Bool} {pd : String} {F ts : ℕ}
    (hp : p ≠ "")
    (hfree : (s.userIdentities sender).proofId = "" ∨
      (s.userIdentities sender).isDeleted = true)
    (hF : s.documentHashes F = true) :
    storeProof kaddr s sender p c ia lv pd F ts =
      Except.error Err.DocumentReused := by
  unfold storeProof
  rw [if_neg hp, if_neg (not_not.mpr hfree), if_pos hF]

theorem storeProof_not_ok_of_docUsed {kaddr : ℕ → ℕ} {s : ContractState}
    {sender : ℕ} {p c : String} {ia lv : Bool} {pd : String} {F ts : ℕ}
    (hF : s.documentHashes F = true) (s' : ContractState) :
    storeProof kaddr s sender p c ia lv pd F ts ≠ Except.ok s' := by
  intro h
  obtain ⟨-, -, h3, -⟩ := storeProof_ok_elim h
  rw [hF] at h3
  cases h3

theorem storeProof_duplicate {kaddr : ℕ → ℕ} {s : ContractState}
    {sender : ℕ} {p c : String} {ia lv : Bool} {pd : String} {F ts : ℕ}
    (hp : p ≠ "")
    (hact : (s.userIdentities sender).proofId ≠ "")
    (hdel : (s.userIdentities sender).isDeleted = false) :
    storeProof kaddr s sender p c ia lv pd F ts =
      Except.error Err.DuplicateIdentity := by
  unfold storeProof
  rw [if_neg hp, if_pos (by simp [hact, hdel])]

theorem updateLiveness_ok_elim {s : ContractState} {sender : ℕ} {lv : Bool}
    {ts : ℕ} {s' : ContractState}
    (h : updateLivenessStatus s sender lv ts = Except.ok s') :
    (s.userIdentities sender).proofId ≠ "" ∧
    (s.userIdentities sender).isDeleted = false ∧
    s' =
      { userIdentities := upd s.userIdentities sender
          { s.userIdentities sender with livenessVerified := lv },
        proofData := upd s.proofData (s.userIdentities sender).proofId
          (s.proofData (s.userIdentities sender).proofId ++
            ", \"livenessVerified\": " ++ (if lv then "true" else "false")),
        documentHashes := s.documentHashes,
        addressHashes := s.addressHashes,
        events := s.events ++
          [Event.ProofStored (s.userIdentities sender).proofId sender
            (s.userIdentities sender).isAdult lv ts] } := by
  unfold updateLivenessStatus at h
  by_cases h1 : (s.userIdentities sender).proofId = ""
  · rw [if_pos h1] at h
    exact absurd h (by simp)
  rw [if_neg h1] at h
  by_cases h2 : (s.userIdentities sender).isDeleted = true
  · rw [if_pos h2] at h
    exact absurd h (by simp)
  · rw [if_neg h2] at h
    exact ⟨h1, by simpa using h2, (Except.ok.inj h).symm⟩

theorem updateLiveness_ok_intro {s : ContractState} {sender : ℕ} {lv : Bool}
    {ts : ℕ}
    (h1 : (s.userIdentities sender).proofId ≠ "")
    (h2 : (s.userIdentities sender).isDeleted = false) :
    updateLivenessStatus s sender lv ts = Except.ok
      { userIdentities := upd s.userIdentities sender
          { s.userIdentities sender with livenessVerified := lv },
        proofData := upd s.proofData (s.userIdentities sender).proofId
          (s.proofData (s.userIdentities sender).proofId ++
            ", \"livenessVerified\": " ++ (if lv then "true" else "false")),
        documentHashes := s.documentHashes,
        addressHashes := s.addressHashes,
        events := s.events ++
          [Event.ProofStored (s.userIdentities sender).proofId sender
            (s.userIdentities sender).isAdult lv ts] } := by
  unfold updateLivenessStatus
  rw [if_neg h1, if_neg (by simp [h2])]

theorem deleteIdentity_ok_elim {s : ContractState} {sender ts : ℕ}
    {s' : ContractState}
    (h : deleteIdentity s sender ts = Except.ok s') :
    (s.userIdentities sender).proofId ≠ "" ∧
    (s.userIdentities sender).isDeleted = false ∧
    s' =
      { userIdentities := upd s.userIdentities sender
          { s.userIdentities sender with isDeleted := true },
        proofData := s.proofData,
        documentHashes := s.documentHashes,
        addressHashes := s.addressHashes,
        events := s.events ++ [Event.IdentityDeleted sender ts] } := by
  unfold deleteIdentity at h
  by_cases h1 : (s.userIdentities sender).proofId = ""
  · rw [if_pos h1] at h
    exact absurd h (by simp)
  rw [if_neg h1] at h
  by_cases h2 : (s.userIdentities sender).isDeleted = true
  · rw [if_pos h2] at h
    exact absurd h (by simp)
  · rw [if_neg h2] at h
    exact ⟨h1, by simpa using h2, (Except.ok.inj h).symm⟩

theorem deleteIdentity_ok_intro {s : ContractState} {sender ts : ℕ}
    (h1 : (s.userIdentities sender).proofId ≠ "")
    (h2 : (s.userIdentities sender).isDeleted = false) :
    deleteIdentity s sender ts = Except.ok
      { userIdentities := upd s.userIdentities sender
          { s.userIdentities sender with isDeleted := true },
        proofData := s.proofData,
        documentHashes := s.documentHashes,
        addressHashes := s.addressHashes,
        events := s.events ++ [Event.IdentityDeleted sender ts] } := by
  unfold deleteIdentity
  rw [if_neg h1, if_neg (by simp [h2])]

theorem verify_ok {kstr : String → ℕ} {kbytes : List ℕ → ℕ}
    {s : ContractState} {pid : String} {h : ℕ} {code : String} {ch a : ℕ}
    (hA : s.addressHashes h = a) (hA0 : a ≠ 0)
    (hpid : (s.userIdentities a).proofId ≠ "")
    (hdel : (s.userIdentities a).isDeleted = false) :
    verifyProofWithCodeHash kstr kbytes s pid h code ch =
      Except.ok ((kstr (s.userIdentities a).proofId == kstr pid) &&
        verifyCodeHash kbytes code ch a) := by
  simp [verifyProofWithCodeHash, getAddressFromHash, hA, hA0, hpid, hdel]

theorem verify_alreadyDeleted {kstr : String → ℕ} {kbytes : List ℕ → ℕ}
    {s : ContractState} {pid : String} {h : ℕ} {code : String} {ch a : ℕ}
    (hA : s.addressHashes h = a) (hA0 : a ≠ 0)
    (hpid : (s.userIdentities a).proofId ≠ "")
    (hdel : (s.userIdentities a).isDeleted = true) :
    verifyProofWithCodeHash kstr kbytes s pid h code ch =
      Except.error Err.AlreadyDeleted := by
  simp [verifyProofWithCodeHash, getAddressFromHash, hA, hA0, hpid, hdel]

/-! ## Preservation lemmas over the contract's mutating operations -/

theorem step_documentHashes_mono {s s' : ContractState} (hst : Step s s')
    {F : ℕ} (hF : s.documentHashes F = true) : s'.documentHashes F = true := by
  cases hst with
  | store h =>
    obtain ⟨-, -, -, rfl⟩ := storeProof_ok_elim h
    simp [upd, hF]
  | update h =>
    obtain ⟨-, -, rfl⟩ := updateLiveness_ok_elim h
    exact hF
  | delete h =>
    obtain ⟨-, -, rfl⟩ := deleteIdentity_ok_elim h
    exact hF

theorem reach_documentHashes_mono {s s₂ : ContractState}
    (h : Relation.ReflTransGen Step s s₂) {F : ℕ}
    (hF : s.documentHashes F = true) : s₂.documentHashes F = true := by
  induction h with
  | refl => exact hF
  | tail hab hbc ih => exact step_documentHashes_mono hbc ih

theorem step_deletedRecord_persists {s s' : ContractState} (hst : Step s s')
    (a : ℕ) (hd : deletedRecord s a) :
    deletedRecord s' a ∨
    ∃ kaddr p c ia lv pd F ts,
      storeProof kaddr s a p c ia lv pd F ts = Except.ok s' := by
  cases hst with
  | @store kaddr _ sender p c ia lv pd F ts _ h =>
    by_cases hsa : sender = a
    · subst hsa
      exact Or.inr ⟨kaddr, p, c, ia, lv, pd, F, ts, h⟩
    · obtain ⟨-, -, -, rfl⟩ := storeProof_ok_elim h
      left
      unfold deletedRecord
      dsimp only
      rw [upd_ne _ _ _ _ (fun hh => hsa hh.symm)]
      exact hd
  | @update _ sender lv ts _ h =>
    obtain ⟨hne, hdf, rfl⟩ := updateLiveness_ok_elim h
    by_cases hsa : sender = a
    · subst hsa
      exact absurd hd.2 (by simp [hdf])
    · left
      unfold deletedRecord
      dsimp only
      rw [upd_ne _ _ _ _ (fun hh => hsa hh.symm)]
      exact hd
  | @delete _ sender ts _ h =>
    obtain ⟨hne, hdf, rfl⟩ := deleteIdentity_ok_elim h
    by_cases hsa : sender = a
    · subst hsa
      exact absurd hd.2 (by simp [hdf])
    · left
      unfold deletedRecord
      dsimp only
      rw [upd_ne _ _ _ _ (fun hh => hsa hh.symm)]
      exact hd

theorem kstr_beq_decide {kstr : String → ℕ} (hinj : Function.Injective kstr)
    (P pid : String) : (kstr P == kstr pid) = decide (pid = P) := by
  by_cases hpp : pid = P
  · subst hpp
    simp
  · rw [decide_eq_false hpp, beq_eq_false_iff_ne]
    exact fun hk => hpp (hinj hk).symm

/-! ## C1 — verification semantics of `verifyProofWithCodeHash` -/

/-- C1: for a stored identity of holder `A` with proof id `P`, and a
call whose address fingerprint resolves to `A` with a record neither
missing nor deleted, `verifyProofWithCodeHash` answers `ok` and answers
`ok true` exactly when the presented proof id equals `P` and the
presented code hash equals the keccak of the packed
`code ++ ":" ++ A` bytes.  Collision-freeness of keccak on proof-id
strings is the injectivity hypothesis `hinj` (the contract compares the
strings through their hashes).  The embedded function is a pure function
of the state — the Solidity original is `view` — so it cannot mutate the
ledger and repeated calls with the same arguments on the same state are
definitionally equal. -/
theorem C1_verify_iff (kstr : String → ℕ) (kbytes : List ℕ → ℕ)
    (s : ContractState) (A h : ℕ) (P pid code : String) (ch : ℕ)
    (hinj : Function.Injective kstr)
    (hA : s.addressHashes h = A) (hA0 : A ≠ 0)
    (hP : (s.userIdentities A).proofId = P) (hPne : P ≠ "")
    (hdel : (s.userIdentities A).isDeleted = false) :
    verifyProofWithCodeHash kstr kbytes s pid h code ch =
      Except.ok (decide (pid = P) &&
        (kbytes (encodePackedCodeColonAddress code A) == ch)) ∧
    (verifyProofWithCodeHash kstr kbytes s pid h code ch = Except.ok true ↔
      (pid = P ∧ kbytes (encodePackedCodeColonAddress code A) = ch)) := by
  have h1 := @verify_ok kstr kbytes s pid h code ch A hA hA0
    (by rw [hP]; exact hPne) hdel
  rw [hP] at h1
  have h2 : (kstr P == kstr pid) = decide (pid = P) := kstr_beq_decide hinj P pid
  constructor
  · rw [h1, h2]
    rfl
  · rw [h1, h2]
    unfold verifyCodeHash
    simp

/-- C1 witness: the stored scenario state, with the injective
stand-ins for keccak, evaluated at holder `1`'s own data. -/
theorem C1_verify_iff_witness :
    verifyProofWithCodeHash strCode kB stateA "proof1" 2 "123456" 42 =
      Except.ok (decide (("proof1" : String) = "proof1") &&
        (kB (encodePackedCodeColonAddress "123456" 1) == 42)) ∧
    (verifyProofWithCodeHash strCode kB stateA "proof1" 2 "123456" 42 =
        Except.ok true ↔
      (("proof1" : String) = "proof1" ∧
        kB (encodePackedCodeColonAddress "123456" 1) = 42)) :=
  C1_verify_iff strCode kB stateA 1 2 "proof1" "proof1" "123456" 42
    strCode_injective rfl (by decide) rfl (by decide) rfl

/-! ## C2 — document fingerprints are used-forever -/

/-- C2 counterexample: holder `1` created an identity with document
fingerprint `7`; a later `storeProof` by the same (still active) holder
with the same fingerprint `7` fails with `DuplicateIdentity`, not
`DocumentReused` — the duplicate-identity check runs first, so the
claim's "every later storeProof call with the same F fails with
DocumentReused (any holder)" is false as stated. -/
theorem C2_counterexample :
    storeProof kA emptyState 1 "proof1" "commit1" true false "{}" 7 100 =
      Except.ok stateA ∧
    storeProof kA stateA 1 "proof2" "commit2" true false "{}" 7 300 =
      Except.error Err.DuplicateIdentity ∧
    Err.DuplicateIdentity ≠ Err.DocumentReused :=
  ⟨rfl, rfl, by decide⟩

/-- C2 (amended): once `storeProof` with fingerprint `F` succeeds, `F`
is marked used and stays marked used in every state reachable by any
sequence of mutating operations (nothing, including `deleteIdentity`,
ever removes it); in every such later state a `storeProof` with the same
`F` never succeeds, and it fails precisely with `DocumentReused`
whenever its proof id is nonempty and its caller has no active
identity (otherwise an earlier check's error is reported). -/
theorem C2_document_fingerprint_permanent (kaddr : ℕ → ℕ)
    (s : ContractState) (sender : ℕ) (p c : String) (ia lv : Bool)
    (pd : String) (F ts : ℕ) (s' : ContractState)
    (hok : storeProof kaddr s sender p c ia lv pd F ts = Except.ok s') :
    s'.documentHashes F = true ∧
    (∀ s₂, Relation.ReflTransGen Step s' s₂ →
      s₂.documentHashes F = true ∧
      (∀ (kaddr' : ℕ → ℕ) (sender' : ℕ) (p' c' : String) (ia' lv' : Bool)
          (pd' : String) (ts' : ℕ) (s₃ : ContractState),
        storeProof kaddr' s₂ sender' p' c' ia' lv' pd' F ts' ≠
          Except.ok s₃) ∧
      (∀ (kaddr' : ℕ → ℕ) (sender' : ℕ) (p' c' : String) (ia' lv' : Bool)
          (pd' : String) (ts' : ℕ),
        p' ≠ "" →
        ((s₂.userIdentities sender').proofId = "" ∨
          (s₂.userIdentities sender').isDeleted = true) →
        storeProof kaddr' s₂ sender' p' c' ia' lv' pd' F ts' =
          Except.error Err.DocumentReused)) := by
  obtain ⟨-, -, -, rfl⟩ := storeProof_ok_elim hok
  refine ⟨upd_self _ _ _, ?_⟩
  intro s₂ hreach
  have hF2 : s₂.documentHashes F = true :=
    reach_documentHashes_mono hreach (upd_self _ _ _)
  exact ⟨hF2,
    fun kaddr' sender' p' c' ia' lv' pd' ts' s₃ =>
      storeProof_not_ok_of_docUsed hF2 s₃,
    fun kaddr' sender' p' c' ia' lv' pd' ts' hp' hfree' =>
      storeProof_docReused hp' hfree' hF2⟩

/-- C2 witness: concrete run — fingerprint `7` stays used in `stateA`,
and a fresh holder `5` presenting fingerprint `7` again can never
succeed and gets exactly `DocumentReused`. -/
theorem C2_document_fingerprint_permanent_witness :
    stateA.documentHashes 7 = true ∧
    storeProof kA stateA 5 "px" "cx" false false "dx" 7 400 ≠
      Except.ok emptyState ∧
    storeProof kA stateA 5 "px" "cx" false false "dx" 7 400 =
      Except.error Err.DocumentReused := by
  have hmain := C2_document_fingerprint_permanent kA emptyState 1 "proof1"
    "commit1" true false "{}" 7 100 stateA rfl
  have hs := hmain.2 stateA Relation.ReflTransGen.refl
  exact ⟨hmain.1, hs.2.1 kA 5 "px" "cx" false false "dx" 400 emptyState,
    hs.2.2 kA 5 "px" "cx" false false "dx" 400 (by decide)
      (Or.inl (by decide))⟩

/-! ## C3 — at most one active identity per holder -/

/-- C3: for a holder with an active (nonempty, non-deleted) record, any
`storeProof` call with a well-formed (nonempty) proof id — whatever the
document fingerprint — fails with `DuplicateIdentity`; conversely a
successful `storeProof` requires the holder's slot to be free (empty or
deleted) and the document fingerprint to be unused; and on a deleted (or
empty) slot with a nonempty proof id and a fresh fingerprint the call
succeeds.  Since `userIdentities` maps each address to a single record,
this is the one-active-identity-per-holder invariant. -/
theorem C3_single_active_identity (kaddr : ℕ → ℕ) (s : ContractState)
    (A : ℕ) (p c : String) (ia lv : Bool) (pd : String) (F ts : ℕ) :
    ((s.userIdentities A).proofId ≠ "" →
      (s.userIdentities A).isDeleted = false → p ≠ "" →
      storeProof kaddr s A p c ia lv pd F ts =
        Except.error Err.DuplicateIdentity) ∧
    (∀ s', storeProof kaddr s A p c ia lv pd F ts = Except.ok s' →
      ((s.userIdentities A).proofId = "" ∨
        (s.userIdentities A).isDeleted = true) ∧
      s.documentHashes F = false) ∧
    (((s.userIdentities A).proofId = "" ∨
        (s.userIdentities A).isDeleted = true) →
      p ≠ "" → s.documentHashes F = false →
      storeProof kaddr s A p c ia lv pd F ts = Except.ok
        { userIdentities := upd s.userIdentities A
            { proofId := p, commitment := c, isAdult := ia,
              livenessVerified := lv, timestamp := ts, isDeleted := false },
          proofData := upd s.proofData p pd,
          documentHashes := upd s.documentHashes F true,
          addressHashes := upd s.addressHashes (kaddr A) A,
          events := s.events ++ [Event.ProofStored p A ia lv ts] }) :=
  ⟨fun hact hdel hp => storeProof_duplicate hp hact hdel,
    fun _ hok => ⟨(storeProof_ok_elim hok).2.1,
      (storeProof_ok_elim hok).2.2.1⟩,
    fun hfree hp hdoc => storeProof_ok_intro hp hfree hdoc⟩

/-- C3 witness: holder `1` is active in `stateA`; their second
`storeProof` with a different, fresh fingerprint `9` fails with
`DuplicateIdentity`. -/
theorem C3_single_active_identity_witness :
    storeProof kA stateA 1 "proof2" "commit2" true false "{2}" 9 300 =
      Except.error Err.DuplicateIdentity :=
  (C3_single_active_identity kA stateA 1 "proof2" "commit2" true false
    "{2}" 9 300).1 (by decide) rfl (by decide)

/-! ## C4 — deleted identities can never verify -/

/-- C4: after `deleteIdentity(A)` succeeds, `A`'s record is deleted (and
keeps its nonempty proof id), and every `verifyProofWithCodeHash` call
whose fingerprint resolves to `A` — for any proof id, code and code
hash — fails with `AlreadyDeleted` (in particular it never returns
`true`); moreover no single mutating step other than a successful
`storeProof` by `A` itself (the "fresh identity" creation) can make the
record non-deleted again. -/
theorem C4_deleted_identity_unverifiable (kstr : String → ℕ)
    (kbytes : List ℕ → ℕ) (s : ContractState) (A ts h : ℕ)
    (s' : ContractState)
    (hdel : deleteIdentity s A ts = Except.ok s')
    (hh : s'.addressHashes h = A) (hA0 : A ≠ 0) :
    deletedRecord s' A ∧
    (∀ pid code ch, verifyProofWithCodeHash kstr kbytes s' pid h code ch =
      Except.error Err.AlreadyDeleted) ∧
    (∀ s₂ s₃, Step s₂ s₃ → deletedRecord s₂ A →
      deletedRecord s₃ A ∨
      ∃ kaddr p c ia lv pd F ts₂,
        storeProof kaddr s₂ A p c ia lv pd F ts₂ = Except.ok s₃) := by
  obtain ⟨hne, hdf, rfl⟩ := deleteIdentity_ok_elim hdel
  have hd : deletedRecord
      { userIdentities := upd s.userIdentities A
          { s.userIdentities A with isDeleted := true },
        proofData := s.proofData,
        documentHashes := s.documentHashes,
        addressHashes := s.addressHashes,
        events := s.events ++ [Event.IdentityDeleted A ts] } A := by
    unfold deletedRecord
    dsimp only
    rw [upd_self]
    exact ⟨hne, rfl⟩
  exact ⟨hd, fun pid code ch => verify_alreadyDeleted hh hA0 hd.1 hd.2,
    fun s₂ s₃ hst hd₂ => step_deletedRecord_persists hst A hd₂⟩

/-- C4 witness: in the concrete deleted state, verification through
holder `1`'s fingerprint fails with `AlreadyDeleted`. -/
theorem C4_deleted_identity_unverifiable_witness :
    deletedRecord stateADel 1 ∧
    verifyProofWithCodeHash strCode kB stateADel "proof1" 2 "000000" 0 =
      Except.error Err.AlreadyDeleted := by
  have hmain := C4_deleted_identity_unverifiable strCode kB stateA 1 200 2
    stateADel rfl rfl (by decide)
  exact ⟨hmain.1, hmain.2.1 "proof1" "000000" 0⟩

/-! ## C5 — atomicity of `storeProof` -/

/-- C5: `storeProof` is atomic.  On any failure the resulting ledger
state (with the EVM revert made explicit by `execStoreProof`) is exactly
the pre-state — all four mappings untouched — and the failure is one of
`EmptyProofId`, `DuplicateIdentity`, `DocumentReused`; on success the
resulting state carries all four effects together: the holder's new
record, the payload stored under the proof id, the fingerprint marked
used, and the address-fingerprint lookup entry (plus the creation
event), and nothing else changes. -/
theorem C5_storeProof_atomic (kaddr : ℕ → ℕ) (s : ContractState)
    (sender : ℕ) (p c : String) (ia lv : Bool) (pd : String) (F ts : ℕ) :
    (∀ e, storeProof kaddr s sender p c ia lv pd F ts = Except.error e →
      execStoreProof kaddr s sender p c ia lv pd F ts = s ∧
      (e = Err.EmptyProofId ∨ e = Err.DuplicateIdentity ∨
        e = Err.DocumentReused)) ∧
    (∀ s', storeProof kaddr s sender p c ia lv pd F ts = Except.ok s' →
      execStoreProof kaddr s sender p c ia lv pd F ts = s' ∧
      s' =
        { userIdentities := upd s.userIdentities sender
            { proofId := p, commitment := c, isAdult := ia,
              livenessVerified := lv, timestamp := ts, isDeleted := false },
          proofData := upd s.proofData p pd,
          documentHashes := upd s.documentHashes F true,
          addressHashes := upd s.addressHashes (kaddr sender) sender,
          events := s.events ++ [Event.ProofStored p sender ia lv ts] }) := by
  constructor
  · intro e he
    refine ⟨?_, storeProof_error_elim he⟩
    unfold execStoreProof
    rw [he]
  · intro s' hok
    refine ⟨?_, (storeProof_ok_elim hok).2.2.2⟩
    unfold execStoreProof
    rw [hok]

/-- C5 witness: the failing duplicate call on `stateA` leaves the state
exactly `stateA`, and its error is in the allowed set. -/
theorem C5_storeProof_atomic_witness :
    execStoreProof kA stateA 1 "proof2" "commit2" true false "{2}" 9 300 =
      stateA ∧
    (Err.DuplicateIdentity = Err.EmptyProofId ∨
      Err.DuplicateIdentity = Err.DuplicateIdentity ∨
      Err.DuplicateIdentity = Err.DocumentReused) :=
  (C5_storeProof_atomic kA stateA 1 "proof2" "commit2" true false "{2}"
    9 300).1 Err.DuplicateIdentity rfl

/-! ## C6 — `updateLivenessStatus` frame and effect -/

/-- C6: `updateLivenessStatus` fails with `NotFound` when the caller has
no record and with `AlreadyDeleted` when the record is deleted; on an
active record it sets `livenessVerified` to the new value, rewrites the
stored payload to the old payload with the liveness status appended (so
the entire prior payload is preserved as a prefix — no destructive
overwrite), leaves the record's `proofId`, `commitment`, `isAdult`,
creation `timestamp` and `isDeleted` fields unchanged (the
`with`-update copies them), leaves every other holder's record, every
other payload entry, and the document/address mappings unchanged, and
emits the update event (the contract re-emits `ProofStored`). -/
theorem C6_updateLiveness_spec (s : ContractState) (sender : ℕ)
    (lv : Bool) (ts : ℕ) :
    ((s.userIdentities sender).proofId = "" →
      updateLivenessStatus s sender lv ts = Except.error Err.NotFound) ∧
    ((s.userIdentities sender).proofId ≠ "" →
      (s.userIdentities sender).isDeleted = true →
      updateLivenessStatus s sender lv ts =
        Except.error Err.AlreadyDeleted) ∧
    ((s.userIdentities sender).proofId ≠ "" →
      (s.userIdentities sender).isDeleted = false →
      updateLivenessStatus s sender lv ts = Except.ok
        { userIdentities := upd s.userIdentities sender
            { s.userIdentities sender with livenessVerified := lv },
          proofData := upd s.proofData (s.userIdentities sender).proofId
            (s.proofData (s.userIdentities sender).proofId ++
              ", \"livenessVerified\": " ++
              (if lv then "true" else "false")),
          documentHashes := s.documentHashes,
          addressHashes := s.addressHashes,
          events := s.events ++
            [Event.ProofStored (s.userIdentities sender).proofId sender
              (s.userIdentities sender).isAdult lv ts] }) ∧
    (∀ s', updateLivenessStatus s sender lv ts = Except.ok s' →
      getUserIdentity s' sender =
        { getUserIdentity s sender with livenessVerified := lv } ∧
      getProofData s' (s.userIdentities sender).proofId =
        getProofData s (s.userIdentities sender).proofId ++
          ", \"livenessVerified\": " ++ (if lv then "true" else "false") ∧
      (∀ q, q ≠ (s.userIdentities sender).proofId →
        getProofData s' q = getProofData s q) ∧
      s'.documentHashes = s.documentHashes ∧
      s'.addressHashes = s.addressHashes ∧
      (∀ B, B ≠ sender → s'.userIdentities B = s.userIdentities B) ∧
      s'.events = s.events ++
        [Event.ProofStored (s.userIdentities sender).proofId sender
          (s.userIdentities sender).isAdult lv ts]) := by
  refine ⟨fun h1 => by unfold updateLivenessStatus; rw [if_pos h1],
    fun h1 h2 => by unfold updateLivenessStatus; rw [if_neg h1, if_pos h2],
    fun h1 h2 => updateLiveness_ok_intro h1 h2,
    fun s' hok => ?_⟩
  obtain ⟨h1, h2, rfl⟩ := updateLiveness_ok_elim hok
  refine ⟨?_, ?_, ?_, rfl, rfl, ?_, rfl⟩
  · unfold getUserIdentity
    dsimp only
    rw [upd_self]
  · unfold getProofData
    dsimp only
    rw [upd_self]
  · intro q hq
    unfold getProofData
    dsimp only
    rw [upd_ne _ _ _ _ hq]
  · intro B hB
    dsimp only
    rw [upd_ne _ _ _ _ hB]

/-- C6 witness: updating holder `1`'s liveness to `true` in `stateA`
yields `stateAUpd`, whose record shows the flag and whose payload is the
old payload with the status appended; an unrelated payload entry is
untouched. -/
theorem C6_updateLiveness_spec_witness :
    updateLivenessStatus stateA 1 true 150 = Except.ok stateAUpd ∧
    getUserIdentity stateAUpd 1 =
      { getUserIdentity stateA 1 with livenessVerified := true } ∧
    getProofData stateAUpd "proof1" =
      getProofData stateA "proof1" ++ ", \"livenessVerified\": " ++ "true" ∧
    getProofData stateAUpd "other" = getProofData stateA "other" := by
  have hmain := C6_updateLiveness_spec stateA 1 true 150
  have hok : updateLivenessStatus stateA 1 true 150 = Except.ok stateAUpd :=
    hmain.2.2.1 (by decide) rfl
  have hpost := hmain.2.2.2 stateAUpd hok
  exact ⟨hok, hpost.1, hpost.2.1, hpost.2.2.1 "other" (by decide)⟩

/-! ## C10 — payloads of deleted identities survive -/

/-- C10: `deleteIdentity` changes only the holder's `isDeleted` flag
(plus the event log): the payload store, the other holders' records, the
document registry and the address registry are exactly as before; and a
later successful `storeProof` by the same holder writes only under its
new proof id, so `getProofData` at any other key — in particular the old
proof id — is unchanged from before the deletion. -/
theorem C10_payload_survives_deletion (kaddr : ℕ → ℕ) (s : ContractState)
    (A ts : ℕ) (s' : ContractState)
    (hdel : deleteIdentity s A ts = Except.ok s') :
    s'.proofData = s.proofData ∧
    s'.userIdentities A = { s.userIdentities A with isDeleted := true } ∧
    (∀ B, B ≠ A → s'.userIdentities B = s.userIdentities B) ∧
    s'.documentHashes = s.documentHashes ∧
    s'.addressHashes = s.addressHashes ∧
    (∀ p' c' ia' lv' pd' F' ts' s'',
      storeProof kaddr s' A p' c' ia' lv' pd' F' ts' = Except.ok s'' →
      ∀ q, q ≠ p' → getProofData s'' q = getProofData s q) := by
  obtain ⟨h1, h2, rfl⟩ := deleteIdentity_ok_elim hdel
  refine ⟨rfl, ?_, ?_, rfl, rfl, ?_⟩
  · dsimp only
    rw [upd_self]
  · intro B hB
    dsimp only
    rw [upd_ne _ _ _ _ hB]
  · intro p' c' ia' lv' pd' F' ts' s'' hok q hq
    obtain ⟨-, -, -, rfl⟩ := storeProof_ok_elim hok
    unfold getProofData
    dsimp only
    rw [upd_ne _ _ _ _ hq]

/-- C10 witness: holder `1`'s original payload under `"proof1"` is still
readable unchanged after deletion and after re-creation under
`"proof2"`. -/
theorem C10_payload_survives_deletion_witness :
    stateADel.proofData = stateA.proofData ∧
    storeProof kA stateADel 1 "proof2" "commit2" true true "{2}" 9 300 =
      Except.ok stateAReborn ∧
    getProofData stateAReborn "proof1" = getProofData stateA "proof1" ∧
    getProofData stateAReborn "proof1" = "{}" := by
  have hmain := C10_payload_survives_deletion kA stateA 1 200 stateADel rfl
  refine ⟨hmain.1, rfl, ?_, by decide⟩
  exact hmain.2.2.2.2.2 "proof2" "commit2" true true "{2}" 9 300
    stateAReborn rfl "proof1" (by decide)
